import Mathlib

/-!
# Verification of `mini_container.cpp`

A shallow embedding of the launch protocol of the mini_container tool
(single source file `mini_container.cpp`) together with proofs and
refutations of the specification's claims about it.

Modelling conventions:

* Syscall and shell-command outcomes are supplied by an explicit oracle
  (`SysOracle`, or a `Nat → Bool` success function), since the kernel's
  behaviour is an input to the program, not part of it.
* Side-effecting functions are embedded as generators of event traces
  (`AgentEv`, `FsOp`, `ChildAct`): the list of operations the code performs,
  in program order, cut short at the first `errExit`.
* C/C++ machine integers are embedded as `Int`/`Nat`; the narrowing
  conversion `(int)` of a `long long` is the two's-complement wrap `toInt32`
  (GCC/C++20 semantics).  `std::to_string` is `toString`.
* Diagnostic `std::cout` logging is modelled only where a claim mentions it
  (the child's `runContainer`); elsewhere it is omitted as output-only.
-/

namespace MiniContainer

/-! ## Constants (linux/sched.h, sys/mount.h, x86-64) -/

def SIGCHLD : Nat := 17
def CLONE_NEWNS : Nat := 0x00020000
def CLONE_NEWUTS : Nat := 0x04000000
def CLONE_NEWIPC : Nat := 0x08000000
def CLONE_NEWPID : Nat := 0x20000000
def CLONE_NEWNET : Nat := 0x40000000

def MS_NOSUID : Nat := 2
def MS_NODEV : Nat := 4
def MS_NOEXEC : Nat := 8
def MS_BIND : Nat := 4096
def MS_MOVE : Nat := 8192
def MS_REC : Nat := 16384
def MS_SLAVE : Nat := 1 <<< 19
def MS_SHARED : Nat := 1 <<< 20

def kDefaultBridgeName : String := "br0"
def kDefaultBridgeIp : String := "10.0.0.1"
def kDefaultBridgePrefixLen : String := "16"
def kCgroupRoot : String := "/sys/fs/cgroup/mini_container/"

/-! ## Data model

`LaunchRequest` collects the variables of `main` that the launch consumes:
the CLI option targets `rootfs`, `hostname`, `domain`, `ip`, `enablePid`,
`enableIpc`, `limit.maxRamBytes` (a C `long long`), the global `verbose`,
and the positional command string `cmd`. -/

structure LaunchRequest where
  rootfs : String
  hostname : String
  domain : String
  ip : String
  enablePid : Bool
  enableIpc : Bool
  maxRamBytes : Int
  verbose : Bool
  cmd : String

/-- Two's-complement narrowing of a C `long long` value to `int`
(the effect of `int x = <long long expr>;` under GCC / C++20). -/
def toInt32 (x : Int) : Int := (x + 2 ^ 31) % 2 ^ 32 - 2 ^ 31

/-! ## Clone-flag computation (`main`, lines 368-385) -/

/-- `int flags = SIGCHLD; if (...) flags |= ...;` in `main`. -/
def computeFlags (r : LaunchRequest) : Nat :=
  let flags := SIGCHLD
  let flags := if !r.rootfs.isEmpty then flags ||| CLONE_NEWNS else flags
  let flags := if r.enablePid then flags ||| CLONE_NEWPID else flags
  let flags := if !r.hostname.isEmpty || !r.domain.isEmpty then
    flags ||| CLONE_NEWUTS else flags
  let flags := if r.enableIpc then flags ||| CLONE_NEWIPC else flags
  let flags := if !r.ip.isEmpty then flags ||| CLONE_NEWNET else flags
  flags

/-- Union of every flag bit the launch may ever request. -/
def allLaunchFlags : Nat :=
  SIGCHLD ||| CLONE_NEWNS ||| CLONE_NEWPID ||| CLONE_NEWUTS |||
    CLONE_NEWIPC ||| CLONE_NEWNET

/-- Shared helper: the mount-namespace bit is set in the clone flags
iff `rootfs` is non-empty. -/
lemma computeFlags_newns (r : LaunchRequest) :
    computeFlags r &&& CLONE_NEWNS =
      (if r.rootfs.isEmpty then 0 else CLONE_NEWNS) := by
  cases hr : r.rootfs.isEmpty <;> cases hp : r.enablePid <;>
    cases hh : r.hostname.isEmpty <;> cases hd : r.domain.isEmpty <;>
    cases hi : r.enableIpc <;> cases hn : r.ip.isEmpty <;>
    simp [computeFlags, hr, hp, hh, hd, hi, hn] <;> decide

/-- C4: for every combination of the optional request fields the computed
clone flag set is exactly SIGCHLD unioned with the domain bits of the
present fields — mount iff `rootfs` non-empty, PID iff `enablePid`, UTS iff
`hostname` or `domain` non-empty, IPC iff `enableIpc`, network iff `ip`
non-empty — and no bit outside those. -/
theorem c4_flag_derivation (r : LaunchRequest) :
    computeFlags r =
      SIGCHLD |||
        (if r.rootfs.isEmpty then 0 else CLONE_NEWNS) |||
        (if r.enablePid then CLONE_NEWPID else 0) |||
        (if r.hostname.isEmpty && r.domain.isEmpty then 0 else CLONE_NEWUTS) |||
        (if r.enableIpc then CLONE_NEWIPC else 0) |||
        (if r.ip.isEmpty then 0 else CLONE_NEWNET) ∧
    computeFlags r ||| allLaunchFlags = allLaunchFlags ∧
    computeFlags r &&& 0xFF = SIGCHLD ∧
    (computeFlags r &&& CLONE_NEWNS = CLONE_NEWNS ↔ r.rootfs.isEmpty = false) ∧
    (computeFlags r &&& CLONE_NEWPID = CLONE_NEWPID ↔ r.enablePid = true) ∧
    (computeFlags r &&& CLONE_NEWUTS = CLONE_NEWUTS ↔
      (r.hostname.isEmpty && r.domain.isEmpty) = false) ∧
    (computeFlags r &&& CLONE_NEWIPC = CLONE_NEWIPC ↔ r.enableIpc = true) ∧
    (computeFlags r &&& CLONE_NEWNET = CLONE_NEWNET ↔ r.ip.isEmpty = false) := by
  cases hr : r.rootfs.isEmpty <;> cases hp : r.enablePid <;>
    cases hh : r.hostname.isEmpty <;> cases hd : r.domain.isEmpty <;>
    cases hi : r.enableIpc <;> cases hn : r.ip.isEmpty <;>
    simp [computeFlags, allLaunchFlags, hr, hp, hh, hd, hi, hn] <;> decide

/-! ## Syscall oracle and agent-side event traces -/

/-- Outcomes of the host syscalls and `system()` invocations the agent
performs; the kernel's side of each operation, supplied as an input. -/
structure SysOracle where
  shOk : String → Bool
  mkdirOk : Bool
  writeOk : String → Bool
  closeReadOk : Bool
  pipeWriteOk : Bool
  closeWriteOk : Bool
  waitpidOk : Bool
  rmdirOk : Bool

/-- Observable operations of the agent branch, in program order. -/
inductive AgentEv where
  /-- a `system(cmd)` shell invocation (network plumbing) -/
  | sh (cmd : String)
  /-- `mkdir(path, 0755)` with its outcome -/
  | mkdirEv (path : String) (mode : Nat) (ok : Bool)
  /-- `writeToFile(file, data)` with its outcome -/
  | fileWrite (file : String) (data : String) (ok : Bool)
  /-- `close` of a pipe end -/
  | closeFd (which : String)
  /-- the successful `write(writefd, &success, 1)` handshake byte -/
  | pipeWrite (success : Bool)
  /-- the successful `waitpid(cpid, &status, 0)` -/
  | waitpidEv
  /-- `rmdir` of the cgroup directory -/
  | rmdirEv (path : String)
  /-- `errExit(msg)`: the agent prints `msg` and dies -/
  | abortEv (msg : String)
deriving DecidableEq

/-- `getContainerCgroup` (line 249). -/
def getContainerCgroup (cpid : Nat) : String := kCgroupRoot ++ toString cpid

/-- `setupCgroup` (lines 253-277): returns the `bool` result of the C++
function together with the trace of operations performed.  A failed
`mkdir` or `writeToFile` makes it return `false` without aborting the
agent (the failure is signalled to the child via the handshake byte).
The arithmetic mirrors `int memoryLow = limit.maxRamBytes * 75 / 100;`
and `int memoryMax = limit.maxRamBytes;`: `long long` products and
quotients (exact here, operands are nonnegative so `Int` division agrees
with C++ truncation), narrowed to `int` by `toInt32`. -/
def setupCgroup (o : SysOracle) (cpid : Nat) (maxRamBytes : Int) :
    Bool × List AgentEv :=
  let cgroupPath := getContainerCgroup cpid
  let lowFile := cgroupPath ++ "/memory.low"
  let maxFile := cgroupPath ++ "/memory.max"
  let procsFile := cgroupPath ++ "/cgroup.procs"
  if !o.mkdirOk then (false, [.mkdirEv cgroupPath 0o755 false])
  else if maxRamBytes > 0 then
    let memoryLow := toInt32 (maxRamBytes * 75 / 100)
    let memoryMax := toInt32 maxRamBytes
    if !o.writeOk lowFile then
      (false, [.mkdirEv cgroupPath 0o755 true,
               .fileWrite lowFile (toString memoryLow) false])
    else if !o.writeOk maxFile then
      (false, [.mkdirEv cgroupPath 0o755 true,
               .fileWrite lowFile (toString memoryLow) true,
               .fileWrite maxFile (toString memoryMax) false])
    else
      (o.writeOk procsFile,
       [.mkdirEv cgroupPath 0o755 true,
        .fileWrite lowFile (toString memoryLow) true,
        .fileWrite maxFile (toString memoryMax) true,
        .fileWrite procsFile (toString cpid) (o.writeOk procsFile)])
  else
    (o.writeOk procsFile,
     [.mkdirEv cgroupPath 0o755 true,
      .fileWrite procsFile (toString cpid) (o.writeOk procsFile)])

/-- `prepareNetwork` (lines 158-207): the eight `system()` commands of the
host-side plumbing.  Steps (1) and (3) are best-effort (result ignored);
each other step calls `errExit` on failure.  Returns whether the agent
survives together with the trace. -/
def prepareNetwork (o : SysOracle) (cpid : Nat) : Bool × List AgentEv :=
  let c1 := "ip link add name " ++ kDefaultBridgeName ++ " type bridge"
  let c2 := "ip link set " ++ kDefaultBridgeName ++ " up"
  let c3 := "ip addr add " ++ kDefaultBridgeIp ++ "/" ++
    kDefaultBridgePrefixLen ++ " brd + dev " ++ kDefaultBridgeName
  let vethName := "veth" ++ toString cpid
  let c4 := "ip link add " ++ vethName ++ " type veth peer name eth0 netns " ++
    toString cpid
  let c5 := "ip link set " ++ vethName ++ " up"
  let c6 := "ip link set " ++ vethName ++ " master " ++ kDefaultBridgeName
  let c7 := "sysctl -w net.ipv4.ip_forward=1"
  let c8 := "iptables -t nat -A POSTROUTING -s " ++ kDefaultBridgeIp ++ "/" ++
    kDefaultBridgePrefixLen ++ " -j MASQUERADE"
  if !o.shOk c2 then
    (false, [.sh c1, .sh c2, .abortEv "setting default bridge up failed"])
  else if !o.shOk c4 then
    (false, [.sh c1, .sh c2, .sh c3, .sh c4,
             .abortEv "adding veth pair failed"])
  else if !o.shOk c5 then
    (false, [.sh c1, .sh c2, .sh c3, .sh c4, .sh c5,
             .abortEv "setting veth up failed"])
  else if !o.shOk c6 then
    (false, [.sh c1, .sh c2, .sh c3, .sh c4, .sh c5, .sh c6,
             .abortEv "adding veth to bridge failed"])
  else if !o.shOk c7 then
    (false, [.sh c1, .sh c2, .sh c3, .sh c4, .sh c5, .sh c6, .sh c7,
             .abortEv "enabling net.ipv4.ip_forward failed"])
  else if !o.shOk c8 then
    (false, [.sh c1, .sh c2, .sh c3, .sh c4, .sh c5, .sh c6, .sh c7, .sh c8,
             .abortEv "enabling NAT failed"])
  else
    (true, [.sh c1, .sh c2, .sh c3, .sh c4, .sh c5, .sh c6, .sh c7, .sh c8])

/-- The agent branch of `main` (lines 427-465, then `return 0` at 467):
optional network plumbing, `setupCgroup`, close of the read end, the
handshake byte carrying `setupCgroup`'s result, close of the write end,
`waitpid`, `removeCgroup`.  `childStatus` is the status `waitpid` stores;
it is used only for (omitted) verbose logging, so the agent's exit code —
the second component — does not depend on it.  Exit code 1 is
`errExit`'s `EXIT_FAILURE`, 0 the final `return 0`. -/
def agentRun (o : SysOracle) (r : LaunchRequest) (cpid : Nat)
    (childStatus : Nat) : List AgentEv × Nat :=
  let net := if r.ip.isEmpty then (true, ([] : List AgentEv))
    else prepareNetwork o cpid
  if !net.1 then (net.2, 1)
  else
    let cg := setupCgroup o cpid r.maxRamBytes
    if !o.closeReadOk then
      (net.2 ++ cg.2 ++ [.abortEv "[Agent] close(readfd)"], 1)
    else if !o.pipeWriteOk then
      (net.2 ++ cg.2 ++ [.closeFd "readfd", .abortEv "[Agent] write(writefd)"],
       1)
    else if !o.closeWriteOk then
      (net.2 ++ cg.2 ++ [.closeFd "readfd", .pipeWrite cg.1,
        .abortEv "[Agent] close(writefd)"], 1)
    else if !o.waitpidOk then
      (net.2 ++ cg.2 ++ [.closeFd "readfd", .pipeWrite cg.1,
        .closeFd "writefd", .abortEv "[Agent] waitpid failed"], 1)
    else if !o.rmdirOk then
      (net.2 ++ cg.2 ++ [.closeFd "readfd", .pipeWrite cg.1,
        .closeFd "writefd", .waitpidEv, .abortEv "rmdir(cgroupPath)"], 1)
    else
      (net.2 ++ cg.2 ++ [.closeFd "readfd", .pipeWrite cg.1,
        .closeFd "writefd", .waitpidEv,
        .rmdirEv (getContainerCgroup cpid)], 0)

/-- An oracle on which every operation succeeds. -/
def allOk : SysOracle :=
  ⟨fun _ => true, true, fun _ => true, true, true, true, true, true⟩

/-- A request with every optional field absent and command `/bin/true`. -/
def req0 : LaunchRequest :=
  { rootfs := "", hostname := "", domain := "", ip := "",
    enablePid := false, enableIpc := false, maxRamBytes := 0,
    verbose := false, cmd := "/bin/true" }

/-- The data strings written (or attempted) to a given file, in order. -/
def writesTo (file : String) (evs : List AgentEv) : List String :=
  evs.filterMap fun e => match e with
    | .fileWrite f d _ => if f = file then some d else none
    | _ => none

/-- Appending different suffixes to the same string yields different
strings. -/
lemma ne_of_append_ne_right {t u : String} (s : String) (h : t ≠ u) :
    s ++ t ≠ s ++ u := by
  intro he
  apply h
  have hd : (s ++ t).data = (s ++ u).data := congrArg String.data he
  simp [String.data_append] at hd
  cases t; cases u; simp_all

/-- `toInt32` is the identity on values representable in a C `int`. -/
lemma toInt32_eq_self {x : Int} (h0 : 0 ≤ x) (h1 : x < 2 ^ 31) :
    toInt32 x = x := by
  unfold toInt32; omega

/-- C1: the claim says the agent's exit status propagates the child's
exit status obtained from `waitpid` (0 exactly when the child exited 0).
The code contradicts it: `main` ends in `return 0`, so on the successful
agent path the exit code is 0 for every child status — here a full
successful launch (handshake byte `true` sent, child reaped) whose exit
code is 0 no matter what `waitpid` reported. -/
theorem c1_agent_exit_ignores_child_status (childStatus : Nat) :
    (agentRun allOk req0 1234 childStatus).2 = 0 ∧
      AgentEv.pipeWrite true ∈ (agentRun allOk req0 1234 childStatus).1 := by
  refine ⟨rfl, ?_⟩
  have h : (agentRun allOk req0 1234 childStatus).1 =
      (agentRun allOk req0 1234 0).1 := rfl
  rw [h]
  decide

/-- C3 counterexample: at `max_ram_bytes = 2^31` (a positive `int64` the
CLI accepts), the one string written to `memory.max` is `"-2147483648"`
— the `long long` value narrowed through the `int memoryMax` local —
and not the decimal representation `"2147483648"` of N. -/
theorem c3_counterexample :
    writesTo (getContainerCgroup 1234 ++ "/memory.max")
        (setupCgroup allOk 1234 (2 ^ 31)).2 = ["-2147483648"] ∧
    toString ((2 : Int) ^ 31) = "2147483648" ∧
    writesTo (getContainerCgroup 1234 ++ "/memory.max")
        (setupCgroup allOk 1234 (2 ^ 31)).2 ≠ [toString ((2 : Int) ^ 31)] := by
  refine ⟨by decide, by decide, by decide⟩

/-- C3 amended: for `0 < N < 2^31` (so that the `int` locals `memoryMax`
and `memoryLow` do not truncate), `setupCgroup` writes exactly decimal `N`
to `memory.max` and exactly decimal `floor(N * 75 / 100)` to `memory.low`;
for `N ≤ 0` neither file is written.  (For `N ≥ 2^31` the written values
are the 32-bit truncations, see the counterexample.) -/
theorem c3_memory_limit_math (o : SysOracle) (cpid : Nat) (N : Int)
    (hmk : o.mkdirOk = true) (hw : ∀ f, o.writeOk f = true) :
    (0 < N → N < 2 ^ 31 →
      writesTo (getContainerCgroup cpid ++ "/memory.max")
          (setupCgroup o cpid N).2 = [toString N] ∧
      writesTo (getContainerCgroup cpid ++ "/memory.low")
          (setupCgroup o cpid N).2 = [toString (N * 75 / 100)]) ∧
    (N ≤ 0 →
      writesTo (getContainerCgroup cpid ++ "/memory.max")
          (setupCgroup o cpid N).2 = [] ∧
      writesTo (getContainerCgroup cpid ++ "/memory.low")
          (setupCgroup o cpid N).2 = []) := by
  have hml : getContainerCgroup cpid ++ "/memory.low" ≠
      getContainerCgroup cpid ++ "/memory.max" :=
    ne_of_append_ne_right _ (by decide)
  have hmm : getContainerCgroup cpid ++ "/memory.max" ≠
      getContainerCgroup cpid ++ "/memory.low" :=
    ne_of_append_ne_right _ (by decide)
  have hpm : getContainerCgroup cpid ++ "/cgroup.procs" ≠
      getContainerCgroup cpid ++ "/memory.max" :=
    ne_of_append_ne_right _ (by decide)
  have hpl : getContainerCgroup cpid ++ "/cgroup.procs" ≠
      getContainerCgroup cpid ++ "/memory.low" :=
    ne_of_append_ne_right _ (by decide)
  constructor
  · intro h0 h1
    have hN : toInt32 N = N := toInt32_eq_self (le_of_lt h0) h1
    have hL : toInt32 (N * 75 / 100) = N * 75 / 100 :=
      toInt32_eq_self (by omega) (by omega)
    simp only [setupCgroup, hmk, hw, Bool.not_true, Bool.false_eq_true,
      if_false, if_pos h0, hN, hL]
    constructor <;>
      simp [writesTo, hml, hmm, hpm, hpl]
  · intro h0
    have h0' : ¬ (N > 0) := by omega
    simp only [setupCgroup, hmk, hw, Bool.not_true, Bool.false_eq_true,
      if_false, if_neg h0']
    constructor <;>
      simp [writesTo, hpm, hpl]

/-- Closed instance of `c3_memory_limit_math` at `N = 100`, `cpid = 7`:
`memory.max` gets `"100"`, `memory.low` gets `"75"`; and at `N = 0`
neither file is written. -/
theorem c3_memory_limit_math_witness :
    (0 < (100 : Int) → (100 : Int) < 2 ^ 31 →
      writesTo (getContainerCgroup 7 ++ "/memory.max")
          (setupCgroup allOk 7 100).2 = [toString (100 : Int)] ∧
      writesTo (getContainerCgroup 7 ++ "/memory.low")
          (setupCgroup allOk 7 100).2 = [toString ((100 : Int) * 75 / 100)]) ∧
    ((100 : Int) ≤ 0 →
      writesTo (getContainerCgroup 7 ++ "/memory.max")
          (setupCgroup allOk 7 100).2 = [] ∧
      writesTo (getContainerCgroup 7 ++ "/memory.low")
          (setupCgroup allOk 7 100).2 = []) :=
  c3_memory_limit_math allOk 7 100 rfl (fun _ => rfl)

/-! ## C5: the cgroup attach precedes the handshake byte -/

/-- Recognises the handshake-byte event. -/
def isPipeWrite : AgentEv → Bool
  | .pipeWrite _ => true
  | _ => false

/-- The completed cgroup attach: the successful write of the child's PID
to `cgroup.procs`. -/
def attachEv (cpid : Nat) : AgentEv :=
  .fileWrite (getContainerCgroup cpid ++ "/cgroup.procs") (toString cpid) true

lemma prepareNetwork_no_pipe (o : SysOracle) (cpid : Nat) :
    ∀ e ∈ (prepareNetwork o cpid).2, isPipeWrite e = false := by
  intro e he
  cases e <;> try rfl
  exfalso
  simp only [prepareNetwork] at he
  split_ifs at he <;> simp at he

lemma setupCgroup_no_pipe (o : SysOracle) (cpid : Nat) (m : Int) :
    ∀ e ∈ (setupCgroup o cpid m).2, isPipeWrite e = false := by
  intro e he
  cases e <;> try rfl
  exfalso
  simp only [setupCgroup] at he
  split_ifs at he <;> simp at he

lemma setupCgroup_success_attach (o : SysOracle) (cpid : Nat) (m : Int)
    (h : (setupCgroup o cpid m).1 = true) :
    attachEv cpid ∈ (setupCgroup o cpid m).2 := by
  rcases lt_or_le 0 m with hm | hm
  · have hif : (m > 0) = True := eq_true hm
    cases hmk : o.mkdirOk
    · simp [setupCgroup, hmk] at h
    · cases hlow : o.writeOk (getContainerCgroup cpid ++ "/memory.low")
      · simp [setupCgroup, hmk, hif, hlow] at h
      · cases hmax : o.writeOk (getContainerCgroup cpid ++ "/memory.max")
        · simp [setupCgroup, hmk, hif, hlow, hmax] at h
        · simp only [setupCgroup, hmk, hif] at h ⊢
          simp_all [attachEv]
  · have hif : (m > 0) = False := eq_false (not_lt.mpr hm)
    cases hmk : o.mkdirOk
    · simp [setupCgroup, hmk] at h
    · simp only [setupCgroup, hmk, hif] at h ⊢
      simp_all [attachEv]

/-- A list that splits as `pre ++ a :: post` with the distinguished
element satisfying `p` and nothing in `pre` or `post` satisfying it,
splits that way uniquely. -/
lemma split_unique {α : Type} (p : α → Bool) :
    ∀ (pre l1 : List α) (a b : α) (post l2 : List α),
      pre ++ a :: post = l1 ++ b :: l2 →
      p a = true → p b = true →
      (∀ x ∈ pre, p x = false) → (∀ x ∈ post, p x = false) →
      pre = l1 ∧ a = b ∧ post = l2 := by
  intro pre
  induction pre with
  | nil =>
    intro l1 a b post l2 heq hpa hpb hpre hpost
    cases l1 with
    | nil =>
      simp only [List.nil_append, List.cons.injEq] at heq
      exact ⟨rfl, heq.1, heq.2⟩
    | cons y l1' =>
      exfalso
      simp only [List.nil_append, List.cons_append, List.cons.injEq] at heq
      obtain ⟨rfl, hrest⟩ := heq
      have hb : b ∈ post := by
        rw [hrest]; exact List.mem_append_right _ (List.mem_cons_self _ _)
      have := hpost b hb
      rw [hpb] at this
      exact Bool.noConfusion this
  | cons y pre' ih =>
    intro l1 a b post l2 heq hpa hpb hpre hpost
    cases l1 with
    | nil =>
      exfalso
      simp only [List.cons_append, List.nil_append, List.cons.injEq] at heq
      obtain ⟨rfl, _⟩ := heq
      have := hpre y (List.mem_cons_self _ _)
      rw [hpb] at this
      exact Bool.noConfusion this
    | cons z l1' =>
      simp only [List.cons_append, List.cons.injEq] at heq
      obtain ⟨rfl, heq'⟩ := heq
      obtain ⟨h1, h2, h3⟩ := ih l1' a b post l2 heq' hpa hpb
        (fun x hx => hpre x (List.mem_cons_of_mem _ hx)) hpost
      exact ⟨by rw [h1], h2, h3⟩

/-- Structure of the agent trace around the handshake byte: either no
handshake byte was written (the agent died first), or the trace splits as
`pre ++ pipeWrite success :: post` where `success` is `setupCgroup`'s
result, no other handshake write exists, `post` contains no cgroup
attach, and a `true` byte guarantees the attach occurred in `pre`. -/
lemma agentRun_shape (o : SysOracle) (r : LaunchRequest)
    (cpid childStatus : Nat) :
    (∀ e ∈ (agentRun o r cpid childStatus).1, isPipeWrite e = false) ∨
    (∃ pre post,
      (agentRun o r cpid childStatus).1 =
        pre ++ AgentEv.pipeWrite (setupCgroup o cpid r.maxRamBytes).1 ::
          post ∧
      (∀ e ∈ pre, isPipeWrite e = false) ∧
      (∀ e ∈ post, isPipeWrite e = false) ∧
      (∀ e ∈ post, e ≠ attachEv cpid) ∧
      ((setupCgroup o cpid r.maxRamBytes).1 = true →
        attachEv cpid ∈ pre)) := by
  have hnet : ∀ e ∈ (if r.ip.isEmpty then (true, ([] : List AgentEv))
      else prepareNetwork o cpid).2, isPipeWrite e = false := by
    split_ifs with h
    · intro e he; simp at he
    · exact prepareNetwork_no_pipe o cpid
  have hcg := setupCgroup_no_pipe o cpid r.maxRamBytes
  have hatt := setupCgroup_success_attach o cpid r.maxRamBytes
  simp only [agentRun]
  generalize hN : (if r.ip.isEmpty then (true, ([] : List AgentEv))
      else prepareNetwork o cpid) = net at hnet ⊢
  generalize hC : setupCgroup o cpid r.maxRamBytes = cg at hcg hatt ⊢
  obtain ⟨nb, nevs⟩ := net
  obtain ⟨cb, cevs⟩ := cg
  simp only at hnet hcg hatt ⊢
  have habort : ∀ msg : String, isPipeWrite (AgentEv.abortEv msg) = false :=
    fun _ => rfl
  cases nb with
  | false =>
    left
    simpa using hnet
  | true =>
    simp only [Bool.not_true, Bool.false_eq_true, if_false]
    have hpre : ∀ e ∈ nevs ++ cevs ++ [AgentEv.closeFd "readfd"],
        isPipeWrite e = false := by
      intro e he
      rcases List.mem_append.mp he with h | h
      · rcases List.mem_append.mp h with h2 | h2
        · exact hnet e h2
        · exact hcg e h2
      · obtain rfl := List.mem_singleton.mp h
        rfl
    have hattpre : cb = true →
        attachEv cpid ∈ nevs ++ cevs ++ [AgentEv.closeFd "readfd"] := by
      intro hs
      exact List.mem_append_left _ (List.mem_append_right _ (hatt hs))
    cases hcr : o.closeReadOk with
    | false =>
      simp only [Bool.not_false, if_true]
      left
      intro e he
      rcases List.mem_append.mp he with h | h
      · rcases List.mem_append.mp h with h2 | h2
        · exact hnet e h2
        · exact hcg e h2
      · obtain rfl := List.mem_singleton.mp h
        rfl
    | true =>
      simp only [Bool.not_true, Bool.false_eq_true, if_false]
      cases hpw : o.pipeWriteOk with
      | false =>
        simp only [Bool.not_false, if_true]
        left
        intro e he
        rcases List.mem_append.mp he with h | h
        · rcases List.mem_append.mp h with h2 | h2
          · exact hnet e h2
          · exact hcg e h2
        · rcases List.mem_cons.mp h with rfl | h
          · rfl
          · obtain rfl := List.mem_singleton.mp h
            rfl
      | true =>
        simp only [Bool.not_true, Bool.false_eq_true, if_false]
        right
        cases hcw : o.closeWriteOk with
        | false =>
          simp only [Bool.not_false, if_true]
          refine ⟨nevs ++ cevs ++ [AgentEv.closeFd "readfd"],
            [AgentEv.abortEv "[Agent] close(writefd)"], by
              simp [List.append_assoc], hpre, ?_, ?_, hattpre⟩
          · intro e he
            obtain rfl := List.mem_singleton.mp he
            rfl
          · intro e he
            obtain rfl := List.mem_singleton.mp he
            simp [attachEv]
        | true =>
          simp only [Bool.not_true, Bool.false_eq_true, if_false]
          cases hwp : o.waitpidOk with
          | false =>
            simp only [Bool.not_false, if_true]
            refine ⟨nevs ++ cevs ++ [AgentEv.closeFd "readfd"],
              [AgentEv.closeFd "writefd",
               AgentEv.abortEv "[Agent] waitpid failed"], by
                simp [List.append_assoc], hpre, ?_, ?_, hattpre⟩
            · intro e he
              rcases List.mem_cons.mp he with rfl | he
              · rfl
              · obtain rfl := List.mem_singleton.mp he
                rfl
            · intro e he
              rcases List.mem_cons.mp he with rfl | he
              · simp [attachEv]
              · obtain rfl := List.mem_singleton.mp he
                simp [attachEv]
          | true =>
            simp only [Bool.not_true, Bool.false_eq_true, if_false]
            cases hrm : o.rmdirOk with
            | false =>
              simp only [Bool.not_false, if_true]
              refine ⟨nevs ++ cevs ++ [AgentEv.closeFd "readfd"],
                [AgentEv.closeFd "writefd", AgentEv.waitpidEv,
                 AgentEv.abortEv "rmdir(cgroupPath)"], by
                  simp [List.append_assoc], hpre, ?_, ?_, hattpre⟩
              · intro e he
                rcases List.mem_cons.mp he with rfl | he
                · rfl
                · rcases List.mem_cons.mp he with rfl | he
                  · rfl
                  · obtain rfl := List.mem_singleton.mp he
                    rfl
              · intro e he
                rcases List.mem_cons.mp he with rfl | he
                · simp [attachEv]
                · rcases List.mem_cons.mp he with rfl | he
                  · simp [attachEv]
                  · obtain rfl := List.mem_singleton.mp he
                    simp [attachEv]
            | true =>
              simp only [Bool.not_true, Bool.false_eq_true, if_false]
              refine ⟨nevs ++ cevs ++ [AgentEv.closeFd "readfd"],
                [AgentEv.closeFd "writefd", AgentEv.waitpidEv,
                 AgentEv.rmdirEv (getContainerCgroup cpid)], by
                  simp [List.append_assoc], hpre, ?_, ?_, hattpre⟩
              · intro e he
                rcases List.mem_cons.mp he with rfl | he
                · rfl
                · rcases List.mem_cons.mp he with rfl | he
                  · rfl
                  · obtain rfl := List.mem_singleton.mp he
                    rfl
              · intro e he
                rcases List.mem_cons.mp he with rfl | he
                · simp [attachEv]
                · rcases List.mem_cons.mp he with rfl | he
                  · simp [attachEv]
                  · obtain rfl := List.mem_singleton.mp he
                    simp [attachEv]

/-- C5: whenever the agent's trace contains the handshake-byte write,
everything after it contains no completed cgroup attach — the attach, if
it happened, happened before — and if the byte signals success (the only
case in which the child proceeds past its handshake read), the attach is
present before the byte. -/
theorem c5_attach_before_signal (o : SysOracle) (r : LaunchRequest)
    (cpid childStatus : Nat) (l1 l2 : List AgentEv) (b : Bool)
    (heq : (agentRun o r cpid childStatus).1 =
      l1 ++ AgentEv.pipeWrite b :: l2) :
    (∀ e ∈ l2, e ≠ attachEv cpid) ∧
      (b = true → attachEv cpid ∈ l1) := by
  rcases agentRun_shape o r cpid childStatus with hnone | ⟨pre, post, htr,
    hpre, hpost, hpost_att, hatt⟩
  · exfalso
    have hmem : AgentEv.pipeWrite b ∈ (agentRun o r cpid childStatus).1 := by
      rw [heq]; exact List.mem_append_right _ (List.mem_cons_self _ _)
    have := hnone _ hmem
    simp [isPipeWrite] at this
  · rw [htr] at heq
    obtain ⟨h1, h2, h3⟩ := split_unique isPipeWrite pre l1
      (AgentEv.pipeWrite (setupCgroup o cpid r.maxRamBytes).1)
      (AgentEv.pipeWrite b) post l2 heq rfl rfl hpre hpost
    have hb : (setupCgroup o cpid r.maxRamBytes).1 = b := by
      injection h2
    subst h1; subst h3
    refine ⟨hpost_att, fun hbt => hatt ?_⟩
    rw [hb, hbt]

/-- Closed instance of `c5_attach_before_signal`: the successful default
launch, whose trace is `mkdir`, attach, `close(readfd)`, the `true` byte,
`close(writefd)`, `waitpid`, `rmdir`. -/
theorem c5_attach_before_signal_witness :
    (∀ e ∈ ([AgentEv.closeFd "writefd", AgentEv.waitpidEv,
        AgentEv.rmdirEv (getContainerCgroup 1234)] : List AgentEv),
      e ≠ attachEv 1234) ∧
      (true = true → attachEv 1234 ∈
        [AgentEv.mkdirEv (getContainerCgroup 1234) 0o755 true,
         attachEv 1234, AgentEv.closeFd "readfd"]) :=
  c5_attach_before_signal allOk req0 1234 0
    [AgentEv.mkdirEv (getContainerCgroup 1234) 0o755 true,
     attachEv 1234, AgentEv.closeFd "readfd"]
    [AgentEv.closeFd "writefd", AgentEv.waitpidEv,
     AgentEv.rmdirEv (getContainerCgroup 1234)] true (by decide)

/-! ## C6: the child's handshake read (`waitForAgent`, lines 285-304) -/

/-- One return of `read(pipefd[0], &success, sizeof(success))`. -/
inductive ReadRes where
  /-- `ret == -1 && errno == EINTR`: interrupted before any byte arrived -/
  | eintr
  /-- `ret == -1` with any other `errno` -/
  | errOther
  /-- `ret == n` bytes were read; `payload` is the value left in
  `success` (meaningful only when `n = 1`; `read` never returns more
  than the 1 byte requested) -/
  | bytes (n : Nat) (payload : Bool)
deriving DecidableEq

/-- The `do { ret = read(...); } while (ret == -1 && errno == EINTR);`
loop: the first result that is not an EINTR interruption (`none` when the
supplied sequence runs out, i.e. the child is still blocked in `read`). -/
def readLoop : List ReadRes → Option ReadRes
  | [] => none
  | .eintr :: rest => readLoop rest
  | r :: _ => some r

/-- What becomes of the child in `waitForAgent`. -/
inductive HsOutcome where
  /-- returns normally: the child goes on to its setup steps -/
  | proceeds
  /-- `errExit`: the child dies -/
  | aborts
  /-- still blocked in `read` -/
  | blocked
deriving DecidableEq

/-- `waitForAgent`: close the write end (`errExit` on failure), read one
byte retrying while `read` returns -1 with EINTR, `errExit` unless the
read returned exactly `sizeof(success) = 1` byte and the payload is
`true` (`if (ret != sizeof(success) || !success)`), then close the read
end (`errExit` on failure). -/
def waitForAgent (closeWriteOk : Bool) (reads : List ReadRes)
    (closeReadOk : Bool) : HsOutcome :=
  if !closeWriteOk then .aborts
  else match readLoop reads with
    | none => .blocked
    | some (.bytes n payload) =>
        if n == 1 && payload then
          (if closeReadOk then .proceeds else .aborts)
        else .aborts
    | some _ => .aborts

lemma readLoop_replicate (k : Nat) (rs : List ReadRes) :
    readLoop (List.replicate k ReadRes.eintr ++ rs) = readLoop rs := by
  induction k with
  | zero => rfl
  | succ k ih => simpa [List.replicate_succ, readLoop] using ih

/-- C6: prepending any number of EINTR interruptions to the read sequence
leaves the handshake outcome unchanged (the read is retried, and an
EINTR before the agent writes never causes an abort); the child aborts
iff the first non-EINTR result is anything other than a one-byte read of
a `true` payload — for a byte read of `n ≤ 1` bytes, exactly when the
read is short (`n < 1`) or the payload signals failure; and it proceeds
iff that result is exactly the one-byte `true` payload. -/
theorem c6_handshake_read (k : Nat) (rs : List ReadRes)
    (hval : ∀ n p, ReadRes.bytes n p ∈ rs → n ≤ 1) :
    waitForAgent true (List.replicate k ReadRes.eintr ++ rs) true =
      waitForAgent true rs true ∧
    (waitForAgent true rs true = HsOutcome.aborts ↔
      ∃ r, readLoop rs = some r ∧ r ≠ ReadRes.bytes 1 true) ∧
    (waitForAgent true rs true = HsOutcome.proceeds ↔
      readLoop rs = some (ReadRes.bytes 1 true)) ∧
    (∀ n p, readLoop rs = some (ReadRes.bytes n p) →
      (waitForAgent true rs true = HsOutcome.aborts ↔
        (n < 1 ∨ p = false))) := by
  refine ⟨by simp [waitForAgent, readLoop_replicate], ?_, ?_, ?_⟩
  · cases hloop : readLoop rs with
    | none => simp [waitForAgent, hloop]
    | some r =>
      cases r with
      | eintr => simp [waitForAgent, hloop]
      | errOther => simp [waitForAgent, hloop]
      | bytes n p =>
        cases hn : n == 1 <;> cases p <;>
          simp_all [waitForAgent, hloop] <;> omega
  · cases hloop : readLoop rs with
    | none => simp [waitForAgent, hloop]
    | some r =>
      cases r with
      | eintr => simp [waitForAgent, hloop]
      | errOther => simp [waitForAgent, hloop]
      | bytes n p =>
        cases hn : n == 1 <;> cases p <;>
          simp_all [waitForAgent, hloop] <;> omega
  · intro n p hloop
    have hmem : ReadRes.bytes n p ∈ rs := by
      clear hval
      induction rs with
      | nil => simp [readLoop] at hloop
      | cons r rest ih =>
        cases r with
        | eintr =>
          simp only [readLoop] at hloop
          exact List.mem_cons_of_mem _ (ih hloop)
        | errOther =>
          simp [readLoop] at hloop
        | bytes m q =>
          simp only [readLoop, Option.some.injEq] at hloop
          rw [← hloop]
          exact List.mem_cons_self _ _
    have hn1 : n ≤ 1 := hval n p hmem
    cases hn : n == 1 with
    | false =>
      have hne : n ≠ 1 := by simpa using hn
      cases p <;> simp [waitForAgent, hloop, hn] <;> omega
    | true =>
      have heq : n = 1 := by simpa using hn
      cases p <;> simp [waitForAgent, hloop, hn, heq]

/-- Closed instance of `c6_handshake_read`: two EINTR interruptions
before a one-byte `true` read leave the outcome `proceeds`. -/
theorem c6_handshake_read_witness :
    waitForAgent true (List.replicate 2 ReadRes.eintr ++
        [ReadRes.bytes 1 true]) true =
      waitForAgent true [ReadRes.bytes 1 true] true ∧
    (waitForAgent true [ReadRes.bytes 1 true] true = HsOutcome.aborts ↔
      ∃ r, readLoop [ReadRes.bytes 1 true] = some r ∧
        r ≠ ReadRes.bytes 1 true) ∧
    (waitForAgent true [ReadRes.bytes 1 true] true = HsOutcome.proceeds ↔
      readLoop [ReadRes.bytes 1 true] = some (ReadRes.bytes 1 true)) ∧
    (∀ n p, readLoop [ReadRes.bytes 1 true] = some (ReadRes.bytes n p) →
      (waitForAgent true [ReadRes.bytes 1 true] true = HsOutcome.aborts ↔
        (n < 1 ∨ p = false))) :=
  c6_handshake_read 2 [ReadRes.bytes 1 true]
    (fun n p h => by
      obtain h2 := List.mem_singleton.mp h
      injection h2 with h3 h4
      exact le_of_eq h3)

/-! ## C7 and C8: the filesystem pivot (`setupFilesystem`, lines 73-142) -/

/-- Operations `setupFilesystem` can perform. -/
inductive FsOp where
  /-- `unshare(CLONE_NEWNS)` -/
  | unshareNewNs
  /-- `mount(source, target, fstype, flags, NULL)`; `fstype = ""` models
  a null `filesystemtype` argument -/
  | mountOp (source target fstype : String) (flags : Nat)
  /-- `chdir(path)` -/
  | chdirOp (path : String)
  /-- `chroot(path)` -/
  | chrootOp (path : String)
deriving DecidableEq

/-- The operations `setupFilesystem` attempts when `rootfs` is non-empty,
in source order (steps (1)-(9) of the function). -/
def setupFilesystemOps (rootfs : String) : List FsOp :=
  [ .unshareNewNs,
    .mountOp "" "/" "" (MS_SLAVE ||| MS_REC),
    .mountOp rootfs rootfs "" (MS_BIND ||| MS_REC),
    .chdirOp rootfs,
    .mountOp rootfs "/" "" MS_MOVE,
    .chrootOp ".",
    .chdirOp "/",
    .mountOp "" "/" "" (MS_SHARED ||| MS_REC),
    .mountOp "proc" "/proc" "proc" (MS_NOSUID ||| MS_NOEXEC ||| MS_NODEV) ]

/-- Run a straight-line sequence of operations each guarded by `errExit`:
the `n`-th operation is attempted only if all earlier ones succeeded and
a failing operation (oracle `false`) ends the run.  Returns the attempted
operations (the failing one included) and whether all succeeded. -/
def runOps : List FsOp → (Nat → Bool) → List FsOp × Bool
  | [], _ => ([], true)
  | op :: rest, ok =>
    if ok 0 then
      let r := runOps rest (fun n => ok (n + 1))
      (op :: r.1, r.2)
    else ([op], false)

/-- `setupFilesystem`: the early return does nothing at all when `rootfs`
is empty, otherwise the guarded sequence `setupFilesystemOps`. -/
def setupFilesystemTrace (rootfs : String) (ok : Nat → Bool) :
    List FsOp × Bool :=
  if rootfs.isEmpty then ([], true)
  else runOps (setupFilesystemOps rootfs) ok

/-- The mount, chdir and chroot operations (everything except the
namespace unshare, which is a namespace operation, not a mount one). -/
def isMountChdirChroot : FsOp → Bool
  | .unshareNewNs => false
  | _ => true

lemma runOps_all_ok (ops : List FsOp) (ok : Nat → Bool)
    (h : ∀ n, ok n = true) : runOps ops ok = (ops, true) := by
  induction ops generalizing ok with
  | nil => rfl
  | cons op rest ih =>
    simp [runOps, h 0, ih (fun n => ok (n + 1)) (fun n => h (n + 1))]

/-- C7: when `rootfs` is non-empty and the operations succeed, the mount,
chdir and chroot operations `setupFilesystem` performs are exactly, in
order: recursive slave remount of `/`, recursive self bind-mount of
`rootfs`, chdir into `rootfs`, move-mount of `rootfs` onto `/`, chroot to
`"."`, chdir to `"/"`, recursive shared remount of `/`, and a fresh
procfs mount at `/proc` with `MS_NOSUID | MS_NOEXEC | MS_NODEV`; when
`rootfs` is empty the function performs no operation at all. -/
theorem c7_pivot_sequence (rootfs : String) (ok : Nat → Bool)
    (hok : ∀ n, ok n = true) :
    (rootfs.isEmpty = false →
      (setupFilesystemTrace rootfs ok).1.filter isMountChdirChroot =
        [ FsOp.mountOp "" "/" "" (MS_SLAVE ||| MS_REC),
          FsOp.mountOp rootfs rootfs "" (MS_BIND ||| MS_REC),
          FsOp.chdirOp rootfs,
          FsOp.mountOp rootfs "/" "" MS_MOVE,
          FsOp.chrootOp ".",
          FsOp.chdirOp "/",
          FsOp.mountOp "" "/" "" (MS_SHARED ||| MS_REC),
          FsOp.mountOp "proc" "/proc" "proc"
            (MS_NOSUID ||| MS_NOEXEC ||| MS_NODEV) ]) ∧
    (rootfs.isEmpty = true → (setupFilesystemTrace rootfs ok).1 = []) := by
  constructor <;> intro h
  · simp [setupFilesystemTrace, h, runOps_all_ok _ _ hok,
      setupFilesystemOps, isMountChdirChroot]
  · simp [setupFilesystemTrace, h]

/-- Closed instance of `c7_pivot_sequence` at `rootfs = "/newroot"` with
an all-success oracle. -/
theorem c7_pivot_sequence_witness :
    (("/newroot" : String).isEmpty = false →
      (setupFilesystemTrace "/newroot" (fun _ => true)).1.filter
          isMountChdirChroot =
        [ FsOp.mountOp "" "/" "" (MS_SLAVE ||| MS_REC),
          FsOp.mountOp "/newroot" "/newroot" "" (MS_BIND ||| MS_REC),
          FsOp.chdirOp "/newroot",
          FsOp.mountOp "/newroot" "/" "" MS_MOVE,
          FsOp.chrootOp ".",
          FsOp.chdirOp "/",
          FsOp.mountOp "" "/" "" (MS_SHARED ||| MS_REC),
          FsOp.mountOp "proc" "/proc" "proc"
            (MS_NOSUID ||| MS_NOEXEC ||| MS_NODEV) ]) ∧
    (("/newroot" : String).isEmpty = true →
      (setupFilesystemTrace "/newroot" (fun _ => true)).1 = []) :=
  c7_pivot_sequence "/newroot" (fun _ => true) (fun _ => rfl)

/-- Recognises the `unshare(CLONE_NEWNS)` step. -/
def isUnshare : FsOp → Bool
  | .unshareNewNs => true
  | _ => false

def countUnshares (ops : List FsOp) : Nat := (ops.filter isUnshare).length

/-- How many fresh mount namespaces a launch creates for the child: one
if `CLONE_NEWNS` is in the clone flags (`main`, lines 369-371), plus one
for every `unshare(CLONE_NEWNS)` the child performs in `setupFilesystem`
(lines 77-80). -/
def mountNsCreations (r : LaunchRequest) (ok : Nat → Bool) : Nat :=
  (if computeFlags r &&& CLONE_NEWNS = 0 then 0 else 1) +
    countUnshares (setupFilesystemTrace r.rootfs ok).1

/-- A request whose only option is `rootfs`. -/
def reqRoot : LaunchRequest := { req0 with rootfs := "/newroot" }

/-- C8 counterexample: with `rootfs` set (and the pivot succeeding) the
launch creates TWO fresh mount namespaces, not exactly one: `main` adds
`CLONE_NEWNS` to the clone flags because `rootfs` is non-empty, and
`setupFilesystem` nevertheless also calls `unshare(CLONE_NEWNS)` — the
explicit unshare step is not skipped. -/
theorem c8_counterexample :
    mountNsCreations reqRoot (fun _ => true) = 2 ∧
      reqRoot.rootfs.isEmpty = false := by
  constructor <;> rfl

/-- C8 amended: when `rootfs` is set, exactly two fresh mount namespaces
are created for the child — one by `clone` with `CLONE_NEWNS`, one by the
(not skipped) `unshare(CLONE_NEWNS)` inside `setupFilesystem`; when
`rootfs` is absent, none is. -/
theorem c8_mount_namespace_count (r : LaunchRequest) (ok : Nat → Bool)
    (hok : ∀ n, ok n = true) :
    (r.rootfs.isEmpty = false → mountNsCreations r ok = 2) ∧
    (r.rootfs.isEmpty = true → mountNsCreations r ok = 0) := by
  have hf := computeFlags_newns r
  constructor <;> intro h <;> rw [h] at hf <;> simp at hf
  · have hf' : computeFlags r &&& (131072 : Nat) = 131072 := by
      simpa [CLONE_NEWNS] using hf
    simp [mountNsCreations, hf', CLONE_NEWNS, setupFilesystemTrace, h,
      runOps_all_ok _ _ hok, countUnshares, setupFilesystemOps, isUnshare]
  · simp [mountNsCreations, hf, setupFilesystemTrace, h, countUnshares]

/-- Closed instance of `c8_mount_namespace_count` at `reqRoot`. -/
theorem c8_mount_namespace_count_witness :
    (reqRoot.rootfs.isEmpty = false →
      mountNsCreations reqRoot (fun _ => true) = 2) ∧
    (reqRoot.rootfs.isEmpty = true →
      mountNsCreations reqRoot (fun _ => true) = 0) :=
  c8_mount_namespace_count reqRoot (fun _ => true) (fun _ => rfl)

/-! ## C9: the pre-fork argument check (`main`, lines 349-366) -/

/-- What the option parsing delivered: whether `--help` was given and
whether the positional `cmd` is present (`vm.count("help")`,
`vm.count("cmd")`).  The other option values do not influence the
pre-fork check. -/
structure ParsedArgs where
  help : Bool
  cmdPresent : Bool

/-- The three ways `main` can go before the `clone` call. -/
inductive PreForkAction where
  /-- `catch (const po::error&)`: print the message, `return -1` -/
  | exitParseError
  /-- `if (vm.count("help") || !vm.count("cmd"))`: print usage,
  `return 0` -/
  | printUsageExitZero
  /-- fall through to the pipe and the `clone` -/
  | proceedToFork
deriving DecidableEq

/-- `main` lines 349-366: a parse failure (`none`) returns -1; help or a
missing positional command prints the usage text and returns 0; otherwise
execution continues towards the fork. -/
def preForkDispatch : Option ParsedArgs → PreForkAction
  | none => .exitParseError
  | some a =>
      if a.help || !a.cmdPresent then .printUsageExitZero
      else .proceedToFork

/-- Process exit status of each pre-fork action (`return -1` from `main`
is observed as wait status 255; `none` marks continuation, no exit). -/
def preForkExit : PreForkAction → Option Nat
  | .exitParseError => some 255
  | .printUsageExitZero => some 0
  | .proceedToFork => none

/-- C9 counterexample: with the positional command missing (and no
`--help`), `main` takes the usage branch and returns 0 — the process
exits with status 0, not the non-zero status the claim requires. -/
theorem c9_counterexample :
    preForkDispatch (some { help := false, cmdPresent := false }) =
      PreForkAction.printUsageExitZero ∧
    preForkExit (preForkDispatch
      (some { help := false, cmdPresent := false })) = some 0 :=
  ⟨rfl, rfl⟩

/-- C9 amended: when the positional command is missing the check does
happen before any fork — the dispatch never reaches the fork — but the
process prints the usage text and exits 0, the same path as `--help`;
only a parse error exits non-zero (status 255) before the fork. -/
theorem c9_missing_command (a : ParsedArgs) (h : a.cmdPresent = false) :
    preForkDispatch (some a) = PreForkAction.printUsageExitZero ∧
    preForkDispatch (some a) ≠ PreForkAction.proceedToFork ∧
    preForkExit (preForkDispatch (some a)) = some 0 ∧
    (∀ s, preForkExit PreForkAction.exitParseError = some s → s ≠ 0) := by
  refine ⟨?_, ?_, ?_, ?_⟩ <;> simp [preForkDispatch, preForkExit, h]

/-- Closed instance of `c9_missing_command` at
`{help := false, cmdPresent := false}`. -/
theorem c9_missing_command_witness :
    preForkDispatch (some { help := false, cmdPresent := false }) =
      PreForkAction.printUsageExitZero ∧
    preForkDispatch (some { help := false, cmdPresent := false }) ≠
      PreForkAction.proceedToFork ∧
    preForkExit (preForkDispatch
      (some { help := false, cmdPresent := false })) = some 0 ∧
    (∀ s, preForkExit PreForkAction.exitParseError = some s → s ≠ 0) :=
  c9_missing_command { help := false, cmdPresent := false } rfl

/-! ## C2 and C10: `runContainer` (lines 50-71) -/

/-- Classic-locale `isspace`, the delimiter set of
`std::istream_iterator<std::string>` extraction. -/
def isCppSpace (c : Char) : Bool :=
  c = ' ' || c = '\t' || c = '\n' || c = '\x0b' || c = '\x0c' || c = '\r'

/-- Whitespace tokenization: maximal runs of non-space characters.
`cur` is the (reversed) token being accumulated. -/
def wordsAux : List Char → List Char → List (List Char)
  | cur, [] => if cur.isEmpty then [] else [cur.reverse]
  | cur, c :: cs =>
    if isCppSpace c then
      if cur.isEmpty then wordsAux [] cs
      else cur.reverse :: wordsAux [] cs
    else wordsAux (c :: cur) cs

/-- The tokenization `runContainer` performs (lines 51-53):
`std::vector<std::string> tokens{istream_iterator<string>{iss}, ...}`. -/
def tokenize (cmd : String) : List String :=
  (wordsAux [] cmd.data).map fun cs => String.mk cs

/-- Observable actions of `runContainer`. -/
inductive ChildAct where
  /-- a `std::cout` diagnostic line -/
  | logLine (s : String)
  /-- evaluation of `tokens[idx]`; `val` is the element, `none` when the
  index is out of bounds (in C++: undefined behaviour) -/
  | readToken (idx : Nat) (val : Option String)
  /-- `execv(path, args)`; `path` is `tokens[0]`, `none` again recording
  an out-of-bounds read -/
  | execvCall (path : Option String) (args : List String)
  /-- `errExit(msg)` -/
  | fatalExit (msg : String)
deriving DecidableEq

/-- `runContainer` as a trace.  The whole verbose block — the three log
lines, the read of `tokens[0]` and the `execv` itself — is guarded by
`if (verbose)`; when `execv` returns (failure, oracle `execOk = false`)
or when the block was skipped entirely, control reaches
`errExit("execv failed")`.  The hostname and NIS-domain log lines carry
placeholder text for `getHostname()`/`getNisDomainName()`, whose values
are environment state, not request data. -/
def runContainerTrace (vb : Bool) (cmd : String) (execOk : Bool) :
    List ChildAct :=
  let tokens := tokenize cmd
  if vb then
    [ .logLine ("[Container] Running command: " ++ cmd),
      .logLine "[Container] Container hostname: <gethostname>",
      .logLine "[Container] Container NIS domain name: <getdomainname>",
      .readToken 0 tokens.head?,
      .execvCall tokens.head? tokens ] ++
      (if execOk then [] else [.fatalExit "execv failed"])
  else [.fatalExit "execv failed"]

/-- C2: the spec requires the exec to be performed regardless of
`verbose` (two runs differing only in `verbose` perform the same exec).
The code violates this: with `verbose = true` the trace of `runContainer`
contains the `execv` call; with `verbose = false`, same command, it
contains no `execv` at all and dies in `errExit("execv failed")`. -/
theorem c2_exec_depends_on_verbose :
    (ChildAct.execvCall (some "/bin/true") ["/bin/true"] ∈
      runContainerTrace true "/bin/true" true) ∧
    (∀ p args, ChildAct.execvCall p args ∉
      runContainerTrace false "/bin/true" true) ∧
    ChildAct.fatalExit "execv failed" ∈
      runContainerTrace false "/bin/true" true := by
  refine ⟨by decide, ?_, by decide⟩
  intro p args h
  simp [runContainerTrace] at h

/-- C10: for every command string whose whitespace tokenization is empty
(e.g. a blank positional argument), the verbose path of `runContainer`
still evaluates `tokens[0]` — recorded as a `readToken 0` of `none`,
an out-of-bounds read of the empty vector — before the `execv`; no guard
re-checks that the token list is non-empty, so the bound `0 <
tokens.length` required for the access fails even though the positional
argument itself was present. -/
theorem c10_empty_tokenization (cmd : String) (execOk : Bool)
    (h : tokenize cmd = []) :
    ChildAct.readToken 0 (tokenize cmd).head? ∈
      runContainerTrace true cmd execOk ∧
    (tokenize cmd).head? = none ∧
    ¬ 0 < (tokenize cmd).length := by
  refine ⟨?_, by simp [h], by simp [h]⟩
  simp [runContainerTrace]

/-- Closed instance of `c10_empty_tokenization` at `cmd = " "`: the
positional argument is present (a non-empty string) yet tokenizes to
nothing, and the out-of-bounds `tokens[0]` read is reached. -/
theorem c10_empty_tokenization_witness :
    ChildAct.readToken 0 (tokenize " ").head? ∈
      runContainerTrace true " " true ∧
    (tokenize " ").head? = none ∧
    ¬ 0 < (tokenize " ").length :=
  c10_empty_tokenization " " true (by decide)

end MiniContainer
